import Mathlib

/-!
Verification development for the FlexiLoop motor-control firmware
(`motor_ctrl.ino`, plus the older `arduino_loop` variant of
`go_home_or_max`).

The firmware is embedded shallowly: the device state (current speed,
soft limits, last commanded motor speed, potentiometer position,
pending serial frames, emitted response frames) is a record `MState`,
the physical plant (how the potentiometer value evolves while the
motor is driven during a `delay`) is a parameter `Plant`, and each
unbounded `while` loop is written as a fuel-indexed recursion that
returns `none` when the fuel is exhausted.  Serial output frames are
modelled as whole strings appended to `MState.out` (the firmware
emits them with consecutive `Serial.print` calls).  `MState.corrPulses`
is a ghost counter: it is incremented exactly once per corrective
pulse issued by the fine-correction loop of `move_to_feedback_value`
and is read by no operation.
-/

namespace FlexiLoop

/-- Direction constant `FORWARD` from the source. -/
def FORWARD : Nat := 0

/-- Direction constant `REVERSE` from the source. -/
def REVERSE : Nat := 1

/-- Calibration target constant `HOME` from the source. -/
def HOME : Nat := 0

/-- Calibration target constant `MAX` from the source. -/
def MAXPOS : Nat := 1

/-- Boot default of `current_speed`. -/
def DEFAULT_SPEED : Int := 200

/-- Device state threaded through every operation.  Mirrors the
globals of `motor_ctrl.ino` (`current_speed`, `home_limit`,
`max_limit`, `fb_val`, the relay pin) together with the state of the
abstracted peripherals: `motorSpeed` is the last speed commanded to
`md.setM1Speed`, `pos` the raw potentiometer value, `fault` the
(static) driver fault flag, `inFrames` the pending serial input
frames (each without its `;` terminator) and `out` the emitted
response/status frames.  `corrPulses` is ghost instrumentation. -/
structure MState where
  currentSpeed : Int
  homeLimit : Int
  maxLimit : Int
  fbVal : Int
  motorSpeed : Int
  pos : Int
  fault : Bool
  rly : Bool
  inFrames : List (List Char)
  out : List String
  corrPulses : Nat
deriving Repr, DecidableEq

/-- A plant: given the duration of a `delay` call (ms), the currently
commanded motor speed and the current potentiometer value, yield the
potentiometer value when the delay ends. -/
abbrev Plant := Int → Int → Int → Int

/-- `md.setM1Speed(v)`. -/
def setSpeed (v : Int) (s : MState) : MState := { s with motorSpeed := v }

/-- `delay(ms)`: the plant acts on the position for `ms` milliseconds
at the currently commanded motor speed. -/
def delayP (plant : Plant) (ms : Int) (s : MState) : MState :=
  { s with pos := plant ms s.motorSpeed s.pos }

/-- Append one response/status frame to the serial output. -/
def emit (f : String) (s : MState) : MState := { s with out := s.out ++ [f] }

/-- The text of a `Status: <pos>;` frame. -/
def statusFrame (p : Int) : String := ("Status: ") ++ toString p ++ (";")

/-- `send_status()`: emit `Status: <pos>;` with a fresh sensor read. -/
def send_status (s : MState) : MState := emit (statusFrame s.pos) s

/-- `check_abort()`: if a serial frame is pending, consume it and
report whether its first character is `z`. -/
def check_abort (s : MState) : Bool × MState :=
  match s.inFrames with
  | [] => (false, s)
  | d :: rest => (decide (d.head? = some 'z'), { s with inFrames := rest })

/-- `check_stop()`: if a serial frame is pending, consume it and
report whether its first character is `e`. -/
def check_stop (s : MState) : Bool × MState :=
  match s.inFrames with
  | [] => (false, s)
  | d :: rest => (decide (d.head? = some 'e'), { s with inFrames := rest })

/-- The pure limit test of `check_limit()`: both limits configured
(not `-1`) and the sample below `home_limit + 2` or above
`max_limit - 2`. -/
def limitHit (h m v : Int) : Bool :=
  (decide (h ≠ -1) && decide (m ≠ -1)) && (decide (v < h + 2) || decide (v > m - 2))

/-- `check_limit()`: reads the sensor into the global `fb_val` and
tests proximity to the configured soft limits. -/
def check_limit (s : MState) : Bool × MState :=
  let s := { s with fbVal := s.pos }
  (limitHit s.homeLimit s.maxLimit s.fbVal, s)

/-- The short-circuit disjunction `check_abort() || check_limit()`
used by the motion loops. -/
def check_abort_or_limit (s : MState) : Bool × MState :=
  let r := check_abort s
  if r.1 then (true, r.2) else check_limit r.2

/-- `stop_move()`. -/
def stop_move (s : MState) : MState := setSpeed 0 s

/-- `move_ms(ms, pos)`: drive at the configured speed in the given
direction for `ms` milliseconds, then stop and emit a status frame;
returns `FALSE` on a driver fault. -/
def move_ms (plant : Plant) (ms : Int) (dir : Nat) (s : MState) : Bool × MState :=
  let speed := if dir = FORWARD then s.currentSpeed else -s.currentSpeed
  let s := setSpeed speed s
  if s.fault then (false, setSpeed 0 s)
  else
    let s := delayP plant ms s
    let s := setSpeed 0 s
    (true, send_status s)

/-- The `while (!check_stop() && !check_limit())` loop shared by
`move_fwd` and `move_rev`, with the status cadence counter. -/
def freeLoop (plant : Plant) : Nat → Int → MState → Option MState
  | 0, _, _ => none
  | fuel + 1, counter, s =>
    let r := check_stop s
    if r.1 then some r.2
    else
      let r2 := check_limit r.2
      if r2.1 then some r2.2
      else
        let s := delayP plant 100 r2.2
        if counter ≤ 0 then freeLoop plant fuel 5 (send_status s)
        else freeLoop plant fuel (counter - 1) s

/-- `move_fwd()`: free run forward until stop or limit. -/
def move_fwd (plant : Plant) (fuel : Nat) (s : MState) : Option (Bool × MState) :=
  let s := setSpeed s.currentSpeed s
  if s.fault then some (false, setSpeed 0 s)
  else (freeLoop plant fuel 5 s).map (fun s2 => (true, setSpeed 0 s2))

/-- `move_rev()`: free run reverse (after a fixed 300 ms delay) until
stop or limit. -/
def move_rev (plant : Plant) (fuel : Nat) (s : MState) : Option (Bool × MState) :=
  let s := setSpeed (-s.currentSpeed) s
  if s.fault then some (false, setSpeed 0 s)
  else (freeLoop plant fuel 5 (delayP plant 300 s)).map (fun s2 => (true, setSpeed 0 s2))

/-- The `while(TRUE)` poll loop of `go_home_or_max` in
`motor_ctrl.ino`: exit on `check_abort() || check_limit()`, status
every 6th iteration, `delay(500)` pacing. -/
def goHomeLoop (plant : Plant) : Nat → Int → MState → Option MState
  | 0, _, _ => none
  | fuel + 1, st_counter, s =>
    let r := check_abort_or_limit s
    if r.1 then some r.2
    else
      let p := if st_counter ≤ 0 then ((5 : Int), send_status r.2) else (st_counter - 1, r.2)
      goHomeLoop plant fuel p.1 (delayP plant 500 p.2)

/-- `go_home_or_max(pos)` of `motor_ctrl.ino`: drive toward the
extreme and poll abort / soft-limit until one fires. -/
def go_home_or_max (plant : Plant) (fuel : Nat) (pos : Nat) (s : MState) :
    Option (Bool × MState) :=
  let speed := if pos = HOME then -s.currentSpeed else s.currentSpeed
  let s := setSpeed speed s
  if s.fault then some (false, setSpeed 0 s)
  else
    let s := delayP plant 100 s
    (goHomeLoop plant fuel 5 s).map (fun s2 => (true, setSpeed 0 (delayP plant 100 s2)))

/-- The poll loop of the older variant's `go_home_or_max` (lines
917-945 of the source file): inlined stability heuristic on local
`last_fb_val` / `fb_val` / `fb_counter`, status cadence, abort check,
`delay(500)` pacing.  `fb` carries the previous iteration's sample
(initially `-1`). -/
def goHome2Loop (plant : Plant) : Nat → Int → Int → Int → MState → Option MState
  | 0, _, _, _, _ => none
  | fuel + 1, fb0, fbc, stc, s =>
    let last := fb0
    let fb := s.pos
    if (last ≤ fb + 2 ∧ fb - 2 ≤ last) ∧ fbc ≤ 0 then some s
    else
      let fbc2 := if last ≤ fb + 2 ∧ fb - 2 ≤ last then fbc - 1 else fbc
      let p := if stc ≤ 0 then ((5 : Int), send_status s) else (stc - 1, s)
      let r := check_abort p.2
      if r.1 then some (setSpeed 0 r.2)
      else goHome2Loop plant fuel fb fbc2 p.1 (delayP plant 500 r.2)

/-- `go_home_or_max(pos)` of the older variant: drive toward the
extreme until the feedback value is stationary (within 2 units of the
previous sample) for 5 consecutive polls, or an abort arrives. -/
def go_home_or_max2 (plant : Plant) (fuel : Nat) (pos : Nat) (s : MState) :
    Option (Bool × MState) :=
  let speed := if pos = HOME then -s.currentSpeed else s.currentSpeed
  let s := setSpeed speed s
  if s.fault then some (false, setSpeed 0 s)
  else
    let s := delayP plant 100 s
    (goHome2Loop plant fuel (-1) 5 5 s).map (fun s2 => (true, setSpeed 0 (delayP plant 100 s2)))

/-- The coarse forward loop of `move_to_feedback_value`:
`while (get_feedback_value() < target)` with the status / safety
cadence counter; on an observed abort or limit it sets the `end` flag
(`true` component of the result) and breaks. -/
def coarseFwd (plant : Plant) (target : Int) : Nat → Int → MState → Option (Bool × MState)
  | 0, _, _ => none
  | fuel + 1, counter, s =>
    if s.pos < target then
      if counter ≤ 0 then
        let s := send_status s
        let r := check_abort_or_limit s
        if r.1 then some (true, r.2)
        else coarseFwd plant target fuel 5 (delayP plant 100 r.2)
      else coarseFwd plant target fuel (counter - 1) (delayP plant 100 s)
    else some (false, s)

/-- The coarse reverse loop of `move_to_feedback_value`:
`while (get_feedback_value() > target)`; unlike the forward loop it
stops the motor at the poll before setting the `end` flag. -/
def coarseRev (plant : Plant) (target : Int) : Nat → Int → MState → Option (Bool × MState)
  | 0, _, _ => none
  | fuel + 1, counter, s =>
    if s.pos > target then
      if counter ≤ 0 then
        let s := send_status s
        let r := check_abort_or_limit s
        if r.1 then some (true, setSpeed 0 r.2)
        else coarseRev plant target fuel 5 (delayP plant 100 r.2)
      else coarseRev plant target fuel (counter - 1) (delayP plant 100 s)
    else some (false, s)

/-- The backlash take-up loop: `while (get_feedback_value() > target)`
pulse reverse for 100 ms; abort/limit observed after a pulse stops
the motor and sets the `end` flag. -/
def slackLoop (plant : Plant) (target : Int) : Nat → MState → Option (Bool × MState)
  | 0, _ => none
  | fuel + 1, s =>
    if s.pos > target then
      let m := move_ms plant 100 REVERSE s
      let r := check_abort_or_limit m.2
      if r.1 then some (true, setSpeed 0 r.2)
      else slackLoop plant target fuel r.2
    else some (false, s)

/-- The fine-correction loop: `while (diff > 1)` choose a direction
by a fresh sample, pulse 50 ms, settle 100 ms, re-sample; break when
the attempt counter (tested before its post-decrement) is exhausted
or an abort arrives.  The ghost counter `corrPulses` counts the
pulses issued. -/
def corrLoop (plant : Plant) (target : Int) : Nat → Int → MState → Option MState
  | 0, _, _ => none
  | fuel + 1, attempts, s =>
    if (s.pos - target).natAbs > 1 then
      let dir := if s.pos > target then REVERSE else FORWARD
      let m := move_ms plant 50 dir s
      let s := { m.2 with corrPulses := m.2.corrPulses + 1 }
      let s := delayP plant 100 s
      if attempts ≤ 0 then some s
      else
        let r := check_abort s
        if r.1 then some r.2
        else corrLoop plant target fuel (attempts - 1) r.2
    else some s

/-- The common tail of `move_to_feedback_value`: restore the
pre-correction speed, stop the motor, emit a final status frame and
settle. -/
def mtFinish (plant : Plant) (lspeed : Int) (s : MState) : MState :=
  delayP plant 500 (send_status (setSpeed 0 { s with currentSpeed := lspeed }))

/-- Everything of `move_to_feedback_value` after the coarse loop:
save `l_speed`; if the `end` flag is clear, stop and settle, and when
the deviation exceeds 1 run the backlash take-up at slow speed 50 and
then the bounded fine correction; finally `mtFinish`. -/
def mtAfter (plant : Plant) (fuel : Nat) (target : Int) (e : Bool) (s : MState) :
    Option (Bool × MState) :=
  let lspeed := s.currentSpeed
  if e then some (true, mtFinish plant lspeed s)
  else
    let s := setSpeed 0 s
    let s := delayP plant 500 s
    if (s.pos - target).natAbs > 1 then
      let s := { s with currentSpeed := 50 }
      match slackLoop plant target fuel s with
      | none => none
      | some (e2, s) =>
        if e2 then some (true, mtFinish plant lspeed s)
        else
          match corrLoop plant target fuel 10 s with
          | none => none
          | some s => some (true, mtFinish plant lspeed s)
    else some (true, mtFinish plant lspeed s)

/-- `move_to_feedback_value(target)`: select a direction by an
initial sample, drive coarse until the sample crosses the target or a
safety signal fires, then fine-correct; returns `FALSE` only on a
driver fault at the initial speed application. -/
def move_to_feedback_value (plant : Plant) (fuel : Nat) (target : Int) (s : MState) :
    Option (Bool × MState) :=
  let current_val := s.pos
  let fwd := decide (target > current_val)
  let speed := if fwd then s.currentSpeed else -s.currentSpeed
  let s := setSpeed speed s
  if s.fault then some (false, setSpeed 0 s)
  else
    let s := send_status s
    match (if fwd then coarseFwd plant target fuel 5 s else coarseRev plant target fuel 5 s) with
    | none => none
    | some r => mtAfter plant fuel target r.1 r.2

/-- The digit-prefix value used by Arduino `String::toInt` (`atol`):
the value of the longest leading run of decimal digits. -/
def digitsVal (cs : List Char) : Int :=
  (cs.takeWhile Char.isDigit).foldl (fun a c => 10 * a + ((c.toNat : Int) - 48)) 0

/-- Arduino `String::toInt` on a character list: skip leading spaces,
an optional sign, then read leading digits; anything unparseable
yields 0. -/
def toIntArduino (cs : List Char) : Int :=
  match cs.dropWhile (fun c => c = ' ') with
  | '-' :: rest => -digitsVal rest
  | '+' :: rest => digitsVal rest
  | cs2 => digitsVal cs2

/-- `parse_int(data, start_at)`: when the frame is longer than 4
characters, collect the characters from `start_at` up to the first
`.` and convert them with `toInt`; otherwise return 0. -/
def parse_int (data : List Char) (start_at : Nat) : Int :=
  if data.length > 4 then toIntArduino ((data.drop start_at).takeWhile (fun c => c ≠ '.'))
  else 0

/-- The `m` command handler body: run the move, then either the
`MoveTo: <pos>;` frame (with a fresh sensor read) or the fault
message. -/
def cmdMove (plant : Plant) (fuel : Nat) (val : Int) (s : MState) : Option MState :=
  match move_to_feedback_value plant fuel val s with
  | none => none
  | some (true, s) => some (emit (("MoveTo: ") ++ toString s.pos ++ (";")) s)
  | some (false, s) => some (emit ("Motor fault on move!;") s)

/-- `process(data)`: the command dispatcher of `motor_ctrl.ino`.
Returns `none` only when an invoked motion operation runs out of
fuel. -/
def process (plant : Plant) (fuel : Nat) (data : List Char) (s : MState) : Option MState :=
  match data.head? with
  | none => some (emit ("Bad cmd!;") s)
  | some cmd =>
    if cmd = 'a' then some (emit ("RlyOn;") { s with rly := false })
    else if cmd = 'b' then some (emit ("RlyOff;") { s with rly := true })
    else if cmd = 'c' then (move_fwd plant fuel s).map (fun r => emit ("RunFwd;") r.2)
    else if cmd = 'd' then (move_rev plant fuel s).map (fun r => emit ("RunRev;") r.2)
    else if cmd = 'e' then some (emit ("StopRun;") (stop_move s))
    else if cmd = 'f' then
      let r := move_ms plant 20 FORWARD s
      some (emit (if r.1 then ("NudgeFwd;") else ("Motor fault on nudge!;")) r.2)
    else if cmd = 'h' then
      (go_home_or_max plant fuel HOME s).map
        (fun r => emit ("Home;") (if r.1 then r.2 else emit ("Motor fault;") r.2))
    else if cmd = 'j' then
      some (emit ("HomeLimit;") { s with homeLimit := parse_int data 2 })
    else if cmd = 'k' then
      some (emit ("MaxLimit;") { s with maxLimit := parse_int data 2 })
    else if cmd = 'm' then cmdMove plant fuel (parse_int data 2) s
    else if cmd = 'p' then some (emit (("Pos: ") ++ toString s.pos ++ (";")) s)
    else if cmd = 'r' then
      let r := move_ms plant 20 REVERSE s
      some (emit (if r.1 then ("NudgeRev;") else ("Motor fault on nudge!;")) r.2)
    else if cmd = 's' then
      some (emit ("Speed;") { s with currentSpeed := parse_int data 2 })
    else if cmd = 'v' then
      let r := move_ms plant (parse_int data 2) REVERSE s
      some (emit (if r.1 then ("msRev;") else ("Motor fault on reverse ms!;")) r.2)
    else if cmd = 'w' then
      let r := move_ms plant (parse_int data 2) FORWARD s
      some (emit (if r.1 then ("msFwd;") else ("Motor fault on forward ms!;")) r.2)
    else if cmd = 'x' then
      (go_home_or_max plant fuel MAXPOS s).map
        (fun r => emit ("Max;") (if r.1 then r.2 else emit ("Motor fault;") r.2))
    else if cmd = 'y' then some (emit ("y;") s)
    else if cmd = 'z' then some s
    else some (emit ("Bad cmd!;") s)

/-- The boot state of the firmware globals and peripherals, at an
arbitrary initial potentiometer value 0. -/
def initState : MState :=
  { currentSpeed := DEFAULT_SPEED, homeLimit := -1, maxLimit := -1, fbVal := -1,
    motorSpeed := 0, pos := 0, fault := false, rly := true,
    inFrames := [], out := [], corrPulses := 0 }

/-- A fully stationary plant: the potentiometer never moves (an
actuator stalled at an end stop, say). -/
def constPlant : Plant := fun _ _ pos => pos

/-- An ideal unit-step plant: during each `delay` the potentiometer
moves exactly one unit in the commanded direction and does not move
at all when the motor is stopped (noise-free). -/
def unitPlant : Plant := fun _ speed pos =>
  if 0 < speed then pos + 1 else if speed < 0 then pos - 1 else pos

/-- A monotone noise-free plant moving 10 units per `delay` while
driven. -/
def plant2 : Plant := fun _ speed pos =>
  if 0 < speed then pos + 10 else if speed < 0 then pos - 10 else pos

/-- A monotone noise-free plant: 100 units per `delay` while driven,
except only 3 units during the 50 ms fine-correction pulses. -/
def cexPlant1 : Plant := fun ms speed pos =>
  if 0 < speed then pos + (if ms = 50 then 3 else 100)
  else if speed < 0 then pos - (if ms = 50 then 3 else 100) else pos

/-- A monotone noise-free plant on which the 50 ms correction pulses
produce no movement at all (a stalled fine phase): 100 units per
driven `delay` otherwise. -/
def plant3 : Plant := fun ms speed pos =>
  if speed = 0 then pos else if ms = 50 then pos else if 0 < speed then pos + 100 else pos - 100

/-- The configuration fields of the state that no motion loop ever
writes: `current_speed`, the two soft limits and the driver fault
flag. -/
def cfg (s : MState) : Int × Int × Int × Bool :=
  (s.currentSpeed, s.homeLimit, s.maxLimit, s.fault)

theorem check_abort_snd (s : MState) :
    (check_abort s).2 = { s with inFrames := s.inFrames.tail } := by
  cases s with
  | mk cs hl ml fb ms p fl rl fr out cp => cases fr <;> rfl

theorem check_stop_snd (s : MState) :
    (check_stop s).2 = { s with inFrames := s.inFrames.tail } := by
  cases s with
  | mk cs hl ml fb ms p fl rl fr out cp => cases fr <;> rfl

theorem cfg_setSpeed (v : Int) (s : MState) : cfg (setSpeed v s) = cfg s := rfl

theorem cfg_delayP (plant : Plant) (ms : Int) (s : MState) : cfg (delayP plant ms s) = cfg s := rfl

theorem cfg_emit (f : String) (s : MState) : cfg (emit f s) = cfg s := rfl

theorem cfg_send_status (s : MState) : cfg (send_status s) = cfg s := rfl

theorem cfg_check_abort (s : MState) : cfg (check_abort s).2 = cfg s := by
  rw [check_abort_snd]; rfl

theorem cfg_check_stop (s : MState) : cfg (check_stop s).2 = cfg s := by
  rw [check_stop_snd]; rfl

theorem cfg_check_limit (s : MState) : cfg (check_limit s).2 = cfg s := rfl

theorem cfg_check_aol (s : MState) : cfg (check_abort_or_limit s).2 = cfg s := by
  simp only [check_abort_or_limit]
  split
  · exact cfg_check_abort s
  · rw [cfg_check_limit, cfg_check_abort]

theorem cfg_move_ms (plant : Plant) (ms : Int) (dir : Nat) (s : MState) :
    cfg (move_ms plant ms dir s).2 = cfg s := by
  simp only [move_ms]
  split <;> split <;> rfl

theorem pulses_check_abort (s : MState) : (check_abort s).2.corrPulses = s.corrPulses := by
  rw [check_abort_snd]

theorem pulses_check_aol (s : MState) :
    (check_abort_or_limit s).2.corrPulses = s.corrPulses := by
  simp only [check_abort_or_limit]
  split
  · exact pulses_check_abort s
  · rw [show ∀ t : MState, (check_limit t).2.corrPulses = t.corrPulses from fun t => rfl,
      pulses_check_abort]

theorem pulses_move_ms (plant : Plant) (ms : Int) (dir : Nat) (s : MState) :
    (move_ms plant ms dir s).2.corrPulses = s.corrPulses := by
  simp only [move_ms]
  split <;> split <;> rfl

theorem motor_move_ms (plant : Plant) (ms : Int) (dir : Nat) (s : MState) :
    (move_ms plant ms dir s).2.motorSpeed = 0 := by
  simp only [move_ms]
  split <;> split <;> rfl

theorem mtFinish_motorSpeed (plant : Plant) (l : Int) (s : MState) :
    (mtFinish plant l s).motorSpeed = 0 := rfl

theorem mtAfter_motorSpeed {plant : Plant} {fuel : Nat} {target : Int} {e : Bool}
    {s : MState} {r : Bool × MState} (h : mtAfter plant fuel target e s = some r) :
    r.2.motorSpeed = 0 := by
  simp only [mtAfter] at h
  split at h
  · cases h; rfl
  · split at h
    · split at h
      · simp at h
      · split at h
        · cases h; rfl
        · split at h
          · simp at h
          · cases h; rfl
    · cases h; rfl

theorem move_to_motorSpeed {plant : Plant} {fuel : Nat} {target : Int}
    {s : MState} {r : Bool × MState}
    (h : move_to_feedback_value plant fuel target s = some r) : r.2.motorSpeed = 0 := by
  simp only [move_to_feedback_value, setSpeed] at h
  split at h
  · cases h; rfl
  · split at h
    · simp at h
    · exact mtAfter_motorSpeed h

/-- C3 counterexample: with `home_limit = 100`, `max_limit = 900` and
sample `102`, the code's `check_limit` does not fire although the
sample is within 2 units of the home limit (`|102 - 100| = 2`), so
the claimed if-and-only-if characterisation is false at this input. -/
theorem C3_counterexample :
    ¬ ((check_limit { initState with homeLimit := 100, maxLimit := 900, pos := 102 }).1 = true ↔
        ((100 : Int) ≠ -1 ∧ (900 : Int) ≠ -1 ∧
          (((102 : Int) - 100).natAbs ≤ 2 ∨ ((102 : Int) - 900).natAbs ≤ 2))) := by
  decide

/-- C3 (amended): `check_limit` reports a limit if and only if both
soft limits are configured and the fresh sample is either strictly
below `home_limit + 2` or strictly above `max_limit - 2` — a
one-sided band on the interior side of each limit, not the symmetric
two-unit band `|sample - limit| ≤ 2` of the original claim. -/
theorem C3_check_limit_iff (s : MState) :
    (check_limit s).1 = true ↔
      s.homeLimit ≠ -1 ∧ s.maxLimit ≠ -1 ∧
        (s.pos < s.homeLimit + 2 ∨ s.pos > s.maxLimit - 2) := by
  simp [check_limit, limitHit, and_assoc]

/-- C10: every motion operation has commanded motor speed 0 in
whatever state it returns, on every return path (driver fault, safety
exit and normal completion alike). -/
theorem C10_motor_stopped_on_return (plant : Plant) (fuel : Nat) (target ms : Int)
    (dir which : Nat) (s : MState) :
    Option.all (fun r => r.2.motorSpeed == 0) (move_to_feedback_value plant fuel target s) = true ∧
    Option.all (fun r => r.2.motorSpeed == 0) (go_home_or_max plant fuel which s) = true ∧
    (move_ms plant ms dir s).2.motorSpeed = 0 ∧
    Option.all (fun r => r.2.motorSpeed == 0) (move_fwd plant fuel s) = true ∧
    Option.all (fun r => r.2.motorSpeed == 0) (move_rev plant fuel s) = true := by
  refine ⟨?_, ?_, motor_move_ms plant ms dir s, ?_, ?_⟩
  · cases h : move_to_feedback_value plant fuel target s with
    | none => rfl
    | some r => simp [Option.all, move_to_motorSpeed h]
  · cases h : go_home_or_max plant fuel which s with
    | none => rfl
    | some r =>
      simp only [go_home_or_max, setSpeed] at h
      split at h
      · cases h; simp [Option.all]
      · cases hl : goHomeLoop plant fuel 5
            (delayP plant 100
              { s with motorSpeed := if which = HOME then -s.currentSpeed else s.currentSpeed }) with
        | none => rw [hl] at h; simp at h
        | some s2 => rw [hl] at h; cases h; simp [Option.all, setSpeed]
  · cases h : move_fwd plant fuel s with
    | none => rfl
    | some r =>
      simp only [move_fwd, setSpeed] at h
      split at h
      · cases h; simp [Option.all]
      · cases hl : freeLoop plant fuel 5 { s with motorSpeed := s.currentSpeed } with
        | none => rw [hl] at h; simp at h
        | some s2 => rw [hl] at h; cases h; simp [Option.all, setSpeed]
  · cases h : move_rev plant fuel s with
    | none => rfl
    | some r =>
      simp only [move_rev, setSpeed] at h
      split at h
      · cases h; simp [Option.all]
      · cases hl : freeLoop plant fuel 5
            (delayP plant 300 { s with motorSpeed := -s.currentSpeed }) with
        | none => rw [hl] at h; simp at h
        | some s2 => rw [hl] at h; cases h; simp [Option.all, setSpeed]

theorem digitsVal_no_digits {cs : List Char} (h : ∀ c ∈ cs, c.isDigit = false) :
    digitsVal cs = 0 := by
  cases cs with
  | nil => rfl
  | cons a t =>
    have ha := h a (by simp)
    simp [digitsVal, List.takeWhile_cons, ha]

theorem toIntArduino_no_digits {cs : List Char} (h : ∀ c ∈ cs, c.isDigit = false) :
    toIntArduino cs = 0 := by
  have h2 : ∀ c ∈ cs.dropWhile (fun c => c = ' '), c.isDigit = false := fun c hc =>
    h c ((List.dropWhile_sublist _).mem hc)
  simp only [toIntArduino]
  split
  · rename_i rest heq
    have : ∀ c ∈ rest, c.isDigit = false := fun c hc => h2 c (heq ▸ List.mem_cons_of_mem _ hc)
    simp [digitsVal_no_digits this]
  · rename_i rest heq
    have : ∀ c ∈ rest, c.isDigit = false := fun c hc => h2 c (heq ▸ List.mem_cons_of_mem _ hc)
    simp [digitsVal_no_digits this]
  · rename_i cs2 hne1 hne2
    exact digitsVal_no_digits h2

/-- C9: a frame of length at most 4 (the `;` terminator is stripped
before parsing) always parses its argument as 0, so the syntactically
well-formed frame `s,5.` (length 4) sets the speed to 0, not 5. -/
theorem C9_short_frame_parses_zero :
    (∀ data : List Char, data.length ≤ 4 → parse_int data 2 = 0) ∧
    (∀ (plant : Plant) (fuel : Nat) (s : MState),
      process plant fuel ['s', ',', '5', '.'] s
        = some (emit ("Speed;") { s with currentSpeed := 0 })) := by
  constructor
  · intro data h
    rw [parse_int, if_neg (by omega)]
  · intro plant fuel s
    rfl

/-- C9 witness: the bound and the concrete `s,5.` frame at the boot
state. -/
theorem C9_witness :
    (([' '] : List Char).length ≤ 4 ∧ parse_int [' '] 2 = 0) ∧
    process constPlant 0 ['s', ',', '5', '.'] initState
      = some (emit ("Speed;") { initState with currentSpeed := 0 }) :=
  ⟨⟨by decide, C9_short_frame_parses_zero.1 [' '] (by decide)⟩,
    C9_short_frame_parses_zero.2 constPlant 0 initState⟩

/-- C8: when the numeric argument of a frame carries no digits the
parsed value defaults to 0; the frame is still dispatched normally
(shown for the `s` and `m` handlers, which store / use the parsed
value); only an unrecognized command character produces the
`Bad cmd!;` response. -/
theorem C8_parse_failure_defaults_zero :
    (∀ data : List Char,
        (∀ c ∈ (data.drop 2).takeWhile (fun c => c ≠ '.'), c.isDigit = false) →
        parse_int data 2 = 0) ∧
    (∀ (plant : Plant) (fuel : Nat) (s : MState) (t : List Char),
        process plant fuel ('s' :: t) s
          = some (emit ("Speed;") { s with currentSpeed := parse_int ('s' :: t) 2 })) ∧
    (∀ (plant : Plant) (fuel : Nat) (s : MState) (t : List Char),
        process plant fuel ('m' :: t) s = cmdMove plant fuel (parse_int ('m' :: t) 2) s) ∧
    (∀ (plant : Plant) (fuel : Nat) (s : MState) (c : Char) (t : List Char),
        c ≠ 'a' → c ≠ 'b' → c ≠ 'c' → c ≠ 'd' → c ≠ 'e' → c ≠ 'f' → c ≠ 'h' →
        c ≠ 'j' → c ≠ 'k' → c ≠ 'm' → c ≠ 'p' → c ≠ 'r' → c ≠ 's' → c ≠ 'v' →
        c ≠ 'w' → c ≠ 'x' → c ≠ 'y' → c ≠ 'z' →
        process plant fuel (c :: t) s = some (emit ("Bad cmd!;") s)) := by
  refine ⟨?_, fun _ _ _ _ => rfl, fun _ _ _ _ => rfl, ?_⟩
  · intro data h
    rw [parse_int]
    split
    · exact toIntArduino_no_digits h
    · rfl
  · intro plant fuel s c t ha hb hc hd he hf hh hj hk hm hp hr hs hv hw hx hy hz
    simp [process, ha, hb, hc, hd, he, hf, hh, hj, hk, hm, hp, hr, hs, hv, hw, hx, hy, hz]

/-- C8 witness: the digit-free argument `s,ab.` parses as 0 and still
executes; the unknown command `q` yields `Bad cmd!;`. -/
theorem C8_witness :
    ((∀ c ∈ ((['s', ',', 'a', 'b', '.'].drop 2).takeWhile (fun c => c ≠ '.')),
        c.isDigit = false) ∧
      parse_int ['s', ',', 'a', 'b', '.'] 2 = 0) ∧
    process constPlant 0 ['s', ',', 'a', 'b', '.'] initState
      = some (emit ("Speed;") { initState with currentSpeed := parse_int ['s', ',', 'a', 'b', '.'] 2 }) ∧
    process constPlant 0 ['q'] initState = some (emit ("Bad cmd!;") initState) :=
  ⟨⟨by decide, C8_parse_failure_defaults_zero.1 _ (by decide)⟩,
    C8_parse_failure_defaults_zero.2.1 constPlant 0 initState [',', 'a', 'b', '.'],
    C8_parse_failure_defaults_zero.2.2.2 constPlant 0 initState 'q' [] (by decide) (by decide)
      (by decide) (by decide) (by decide) (by decide) (by decide) (by decide) (by decide)
      (by decide) (by decide) (by decide) (by decide) (by decide) (by decide) (by decide)
      (by decide) (by decide)⟩

theorem cfg_eq_fields {a b : MState} (h : cfg a = cfg b) :
    a.currentSpeed = b.currentSpeed ∧ a.homeLimit = b.homeLimit ∧
    a.maxLimit = b.maxLimit ∧ a.fault = b.fault := by
  simpa [cfg, Prod.ext_iff] using h

theorem coarseFwd_cfg {plant : Plant} {target : Int} :
    ∀ {fuel : Nat} {counter : Int} {s : MState} {r : Bool × MState},
      coarseFwd plant target fuel counter s = some r → cfg r.2 = cfg s := by
  intro fuel
  induction fuel with
  | zero => intro counter s r h; simp [coarseFwd] at h
  | succ n ih =>
    intro counter s r h
    simp only [coarseFwd] at h
    split at h
    · split at h
      · split at h
        · cases h; exact (cfg_check_aol _).trans (cfg_send_status s)
        · exact (ih h).trans ((cfg_delayP _ _ _).trans ((cfg_check_aol _).trans (cfg_send_status s)))
      · exact (ih h).trans (cfg_delayP _ _ _)
    · cases h; rfl

theorem coarseRev_cfg {plant : Plant} {target : Int} :
    ∀ {fuel : Nat} {counter : Int} {s : MState} {r : Bool × MState},
      coarseRev plant target fuel counter s = some r → cfg r.2 = cfg s := by
  intro fuel
  induction fuel with
  | zero => intro counter s r h; simp [coarseRev] at h
  | succ n ih =>
    intro counter s r h
    simp only [coarseRev] at h
    split at h
    · split at h
      · split at h
        · cases h; exact (cfg_setSpeed _ _).trans ((cfg_check_aol _).trans (cfg_send_status s))
        · exact (ih h).trans ((cfg_delayP _ _ _).trans ((cfg_check_aol _).trans (cfg_send_status s)))
      · exact (ih h).trans (cfg_delayP _ _ _)
    · cases h; rfl

theorem slackLoop_cfg {plant : Plant} {target : Int} :
    ∀ {fuel : Nat} {s : MState} {r : Bool × MState},
      slackLoop plant target fuel s = some r → cfg r.2 = cfg s := by
  intro fuel
  induction fuel with
  | zero => intro s r h; simp [slackLoop] at h
  | succ n ih =>
    intro s r h
    simp only [slackLoop] at h
    split at h
    · split at h
      · cases h; exact (cfg_setSpeed _ _).trans ((cfg_check_aol _).trans (cfg_move_ms _ _ _ _))
      · exact (ih h).trans ((cfg_check_aol _).trans (cfg_move_ms _ _ _ _))
    · cases h; rfl

theorem cfg_ghost_bump (s : MState) (n : Nat) : cfg { s with corrPulses := n } = cfg s := rfl

theorem corrLoop_cfg {plant : Plant} {target : Int} :
    ∀ {fuel : Nat} {attempts : Int} {s s3 : MState},
      corrLoop plant target fuel attempts s = some s3 → cfg s3 = cfg s := by
  intro fuel
  induction fuel with
  | zero => intro attempts s s3 h; simp [corrLoop] at h
  | succ n ih =>
    intro attempts s s3 h
    simp only [corrLoop] at h
    split at h
    · set dir := if s.pos > target then REVERSE else FORWARD with hdir
      split at h
      · cases h
        exact (cfg_delayP _ _ _).trans ((cfg_ghost_bump _ _).trans (cfg_move_ms _ _ _ _))
      · split at h
        · cases h
          exact (cfg_check_abort _).trans
            ((cfg_delayP _ _ _).trans ((cfg_ghost_bump _ _).trans (cfg_move_ms _ _ _ _)))
        · exact (ih h).trans ((cfg_check_abort _).trans
            ((cfg_delayP _ _ _).trans ((cfg_ghost_bump _ _).trans (cfg_move_ms _ _ _ _))))
    · cases h; rfl

theorem mtFinish_out (plant : Plant) (l : Int) (s : MState) :
    (mtFinish plant l s).out = s.out ++ [statusFrame s.pos] := rfl

theorem mtAfter_frame {plant : Plant} {fuel : Nat} {target : Int} {e : Bool}
    {s : MState} {r : Bool × MState} (h : mtAfter plant fuel target e s = some r) :
    r.1 = true ∧ r.2.currentSpeed = s.currentSpeed ∧ r.2.homeLimit = s.homeLimit ∧
    r.2.maxLimit = s.maxLimit ∧ ∃ p, r.2.out.getLast? = some (statusFrame p) := by
  simp only [mtAfter] at h
  split at h
  · cases h
    exact ⟨rfl, rfl, rfl, rfl, _, by rw [mtFinish_out]; exact List.getLast?_concat _⟩
  · split at h
    · split at h
      · simp at h
      · rename_i r2 hslack
        have hcfg2 := slackLoop_cfg hslack
        split at h
        · cases h
          exact ⟨rfl, rfl, (cfg_eq_fields hcfg2).2.1, (cfg_eq_fields hcfg2).2.2.1,
            _, by rw [mtFinish_out]; exact List.getLast?_concat _⟩
        · split at h
          · simp at h
          · rename_i s3 hcorr
            cases h
            have hcfg3 := corrLoop_cfg hcorr
            refine ⟨rfl, rfl, ?_, ?_, _, by rw [mtFinish_out]; exact List.getLast?_concat _⟩
            · exact ((cfg_eq_fields hcfg3).2.1).trans (cfg_eq_fields hcfg2).2.1
            · exact ((cfg_eq_fields hcfg3).2.2.1).trans (cfg_eq_fields hcfg2).2.2.1
    · cases h
      exact ⟨rfl, rfl, rfl, rfl, _, by rw [mtFinish_out]; exact List.getLast?_concat _⟩

/-- C7: whenever `move_to_feedback_value` returns success (which
covers both completed and abort-terminated runs), `current_speed` is
restored to its pre-call value (the fine-correction phase's temporary
slow speed never leaks), the motor is commanded to speed 0, a final
`Status:` frame is the last output emitted, and the soft limits are
unchanged. -/
theorem C7_move_to_frame_effect {plant : Plant} {fuel : Nat} {target : Int} {s : MState}
    {r : Bool × MState} (h : move_to_feedback_value plant fuel target s = some r)
    (ht : r.1 = true) :
    r.2.currentSpeed = s.currentSpeed ∧ r.2.homeLimit = s.homeLimit ∧
    r.2.maxLimit = s.maxLimit ∧ r.2.motorSpeed = 0 ∧
    ∃ p, r.2.out.getLast? = some (statusFrame p) := by
  have hm := move_to_motorSpeed h
  simp only [move_to_feedback_value, setSpeed] at h
  split at h
  · cases h; simp at ht
  · split at h
    · simp at h
    · rename_i r2 hcoarse
      obtain ⟨-, hcs, hhl, hml, hlast⟩ := mtAfter_frame h
      have hc2 : cfg r2.2 = cfg s := by
        split at hcoarse
        · exact (coarseFwd_cfg hcoarse).trans ((cfg_send_status _).trans rfl)
        · exact (coarseRev_cfg hcoarse).trans ((cfg_send_status _).trans rfl)
      obtain ⟨e1, e2, e3, -⟩ := cfg_eq_fields hc2
      exact ⟨hcs.trans e1, hhl.trans e2, hml.trans e3, hm, hlast⟩

/-- The concrete result of `move_to_feedback_value plant2 100 300`
from the boot state, used to witness C7. -/
def c7res : MState :=
  { currentSpeed := 200, homeLimit := -1, maxLimit := -1, fbVal := 290,
    motorSpeed := 0, pos := 300, fault := false, rly := true, inFrames := [],
    out := ["Status: 0;", "Status: 50;", "Status: 110;", "Status: 170;", "Status: 230;",
            "Status: 290;", "Status: 300;"],
    corrPulses := 0 }

/-- C7 witness: a concrete completed move with the frame conditions
checked. -/
theorem C7_witness :
    move_to_feedback_value plant2 100 300 initState = some (true, c7res) ∧
    c7res.currentSpeed = initState.currentSpeed ∧ c7res.homeLimit = initState.homeLimit ∧
    c7res.maxLimit = initState.maxLimit ∧ c7res.motorSpeed = 0 ∧
    ∃ p, c7res.out.getLast? = some (statusFrame p) := by
  have h : move_to_feedback_value plant2 100 300 initState = some (true, c7res) := by decide
  have h2 := C7_move_to_frame_effect h rfl
  exact ⟨h, h2.1, h2.2.1, h2.2.2.1, h2.2.2.2.1, h2.2.2.2.2⟩

/-- C5 counterexample: on a plant whose 50 ms correction pulses
produce no movement the fine-correction loop of
`move_to_feedback_value` issues 11 corrective pulses (the ghost
counter), exceeding the claimed bound of 10: the post-test decrement
of `attempts` allows one extra pulse. -/
theorem C5_counterexample :
    (move_to_feedback_value plant3 100 50 initState).map (fun r => (r.1, r.2.corrPulses))
        = some (true, 11) ∧ 10 < 11 := by
  exact ⟨by decide, by decide⟩

theorem corrLoop_pulse_bound {plant : Plant} {target : Int} :
    ∀ {fuel : Nat} {attempts : Int} {s s3 : MState},
      0 ≤ attempts → corrLoop plant target fuel attempts s = some s3 →
      s3.corrPulses ≤ s.corrPulses + attempts.toNat + 1 := by
  intro fuel
  induction fuel with
  | zero => intro attempts s s3 _ h; simp [corrLoop] at h
  | succ n ih =>
    intro attempts s s3 ha h
    simp only [corrLoop] at h
    split at h
    · set dir := if s.pos > target then REVERSE else FORWARD with hdir
      split at h
      · cases h
        simp only [delayP]
        rw [pulses_move_ms]
        omega
      · split at h
        · cases h
          rw [pulses_check_abort]
          simp only [delayP]
          rw [pulses_move_ms]
          omega
        · rename_i hatt _
          have h2 := ih (by omega) h
          rw [pulses_check_abort] at h2
          simp only [delayP] at h2
          rw [pulses_move_ms] at h2
          omega
    · cases h; omega

/-- C5 (amended): the fine-correction loop issues at most 11
corrective pulses when started with the code's attempt budget of 10 —
one more than the nominal bound, because `attempts-- <= 0` tests
before decrementing — and it stops immediately (issuing no pulse)
whenever the deviation is at most 1.  (Abort observation also breaks
the loop, visible in the `corrLoop` definition's abort branch.) -/
theorem C5_correction_bound :
    (∀ (plant : Plant) (fuel : Nat) (target attempts : Int) (s s3 : MState),
        0 ≤ attempts → corrLoop plant target fuel attempts s = some s3 →
        s3.corrPulses ≤ s.corrPulses + attempts.toNat + 1) ∧
    (∀ (plant : Plant) (fuel : Nat) (target attempts : Int) (s : MState),
        (s.pos - target).natAbs ≤ 1 → corrLoop plant target (fuel + 1) attempts s = some s) := by
  constructor
  · intro plant fuel target attempts s s3 ha h
    exact corrLoop_pulse_bound ha h
  · intro plant fuel target attempts s hd
    simp only [corrLoop]
    rw [if_neg (by omega)]

/-- C5 witness: the bound and the immediate-stop case at concrete
inputs. -/
theorem C5_witness :
    corrLoop constPlant 0 1 10 initState = some initState ∧
    initState.corrPulses ≤ initState.corrPulses + (10 : Int).toNat + 1 :=
  ⟨C5_correction_bound.2 constPlant 0 0 10 initState (by decide),
    C5_correction_bound.1 constPlant 1 0 10 initState initState (by decide)
      (C5_correction_bound.2 constPlant 0 0 10 initState (by decide))⟩

/-- C2 counterexample: with an abort frame (`z`) pending, the `m,800.`
command's coarse phase consumes the abort at its first safety poll and
terminates early (final position 50, far short of 800), yet
`move_to_feedback_value` returns success and the dispatcher emits the
`MoveTo: 50;` success frame — contradicting the claim that the frame
is not emitted and that the outcome is a distinct `Aborted`. -/
theorem C2_counterexample :
    (process plant2 100 ['m', ',', '8', '0', '0', '.'] { initState with inFrames := [['z']] }).map
        (fun s => (s.pos, s.inFrames, s.out))
      = some (50, ([] : List (List Char)),
          ["Status: 0;", "Status: 50;", "Status: 50;", "MoveTo: 50;"]) := by
  decide

/-- C2 (amended): when the coarse loop — in either drive direction —
exits with the `end` flag set (an abort or limit observed at a poll),
the fine-correction phase is skipped and the operation terminates
early with the motor commanded to 0 (the reverse loop stops it at the
break itself, the forward loop on the common exit path) — but
`move_to_feedback_value` still returns success (`TRUE`), and the
dispatcher therefore still emits the `MoveTo: <pos>;` frame for that
command. -/
theorem C2_abort_still_reports_success :
    (∀ (plant : Plant) (fuel : Nat) (target : Int) (s s1 : MState),
        s.fault = false → target > s.pos →
        coarseFwd plant target fuel 5 (send_status (setSpeed s.currentSpeed s))
          = some (true, s1) →
        move_to_feedback_value plant fuel target s
            = some (true, mtFinish plant s1.currentSpeed s1) ∧
        (mtFinish plant s1.currentSpeed s1).motorSpeed = 0 ∧
        cmdMove plant fuel target s
          = some (emit (("MoveTo: ") ++ toString (mtFinish plant s1.currentSpeed s1).pos ++ (";"))
              (mtFinish plant s1.currentSpeed s1))) ∧
    (∀ (plant : Plant) (fuel : Nat) (target : Int) (s s1 : MState),
        s.fault = false → ¬target > s.pos →
        coarseRev plant target fuel 5 (send_status (setSpeed (-s.currentSpeed) s))
          = some (true, s1) →
        move_to_feedback_value plant fuel target s
            = some (true, mtFinish plant s1.currentSpeed s1) ∧
        (mtFinish plant s1.currentSpeed s1).motorSpeed = 0 ∧
        cmdMove plant fuel target s
          = some (emit (("MoveTo: ") ++ toString (mtFinish plant s1.currentSpeed s1).pos ++ (";"))
              (mtFinish plant s1.currentSpeed s1))) := by
  constructor
  · intro plant fuel target s s1 hf hfwd hc
    have hd : decide (target > s.pos) = true := decide_eq_true hfwd
    have h1 : move_to_feedback_value plant fuel target s
        = some (true, mtFinish plant s1.currentSpeed s1) := by
      simp only [move_to_feedback_value, hd, if_true, setSpeed]
      rw [if_neg (by simp [hf])]
      rw [show send_status { s with motorSpeed := s.currentSpeed }
          = send_status (setSpeed s.currentSpeed s) from rfl, hc]
      simp [mtAfter]
    refine ⟨h1, mtFinish_motorSpeed plant s1.currentSpeed s1, ?_⟩
    simp only [cmdMove, h1]
  · intro plant fuel target s s1 hf hrev hc
    have hd : decide (target > s.pos) = false := decide_eq_false hrev
    have h1 : move_to_feedback_value plant fuel target s
        = some (true, mtFinish plant s1.currentSpeed s1) := by
      simp only [move_to_feedback_value, hd, Bool.false_eq_true, if_false]
      rw [if_neg (by simp [setSpeed, hf])]
      rw [hc]
      simp [mtAfter]
    refine ⟨h1, mtFinish_motorSpeed plant s1.currentSpeed s1, ?_⟩
    simp only [cmdMove, h1]

/-- The state of the C2 forward witness run after its coarse phase:
the abort frame has been consumed, the loop broke at position 50 with
the motor still commanded (the forward loop defers the stop). -/
def st2c : MState :=
  { currentSpeed := 200, homeLimit := -1, maxLimit := -1, fbVal := -1,
    motorSpeed := 200, pos := 50, fault := false, rly := true, inFrames := [],
    out := ["Status: 0;", "Status: 50;"], corrPulses := 0 }

/-- The initial state of the C2 reverse witness run: starting at 800
with an abort frame pending. -/
def st2r : MState := { initState with pos := 800, inFrames := [['z']] }

/-- The state of the C2 reverse witness run after its coarse phase:
the abort frame has been consumed, the loop broke at position 750 and
stopped the motor at the break. -/
def st2rc : MState :=
  { currentSpeed := 200, homeLimit := -1, maxLimit := -1, fbVal := -1,
    motorSpeed := 0, pos := 750, fault := false, rly := true, inFrames := [],
    out := ["Status: 800;", "Status: 750;"], corrPulses := 0 }

/-- C2 witness: the amended theorem applied to concrete aborted runs
in both directions (`m,800.` from 0, `m,0.` from 800). -/
theorem C2_witness :
    (move_to_feedback_value plant2 100 800 { initState with inFrames := [['z']] }
        = some (true, mtFinish plant2 st2c.currentSpeed st2c) ∧
      (mtFinish plant2 st2c.currentSpeed st2c).motorSpeed = 0 ∧
      cmdMove plant2 100 800 { initState with inFrames := [['z']] }
        = some (emit (("MoveTo: ") ++ toString (mtFinish plant2 st2c.currentSpeed st2c).pos ++ (";"))
            (mtFinish plant2 st2c.currentSpeed st2c))) ∧
    (move_to_feedback_value plant2 100 0 st2r
        = some (true, mtFinish plant2 st2rc.currentSpeed st2rc) ∧
      (mtFinish plant2 st2rc.currentSpeed st2rc).motorSpeed = 0 ∧
      cmdMove plant2 100 0 st2r
        = some (emit (("MoveTo: ") ++ toString (mtFinish plant2 st2rc.currentSpeed st2rc).pos ++ (";"))
            (mtFinish plant2 st2rc.currentSpeed st2rc))) :=
  ⟨C2_abort_still_reports_success.1 plant2 100 800 { initState with inFrames := [['z']] } st2c
      (by decide) (by decide) (by decide),
    C2_abort_still_reports_success.2 plant2 100 0 st2r st2rc
      (by decide) (by decide) (by decide)⟩

/-- C6 counterexample: a stop frame (`e`) pending during the `m,300.`
closed-loop move is consumed at the first coarse-phase safety poll
but does not make the loop exit: the run continues to position 300
and completes with the `MoveTo: 300;` frame, and its observable
behaviour is identical to the run with no pending frame at all. -/
theorem C6_counterexample :
    (process plant2 200 ['m', ',', '3', '0', '0', '.'] { initState with inFrames := [['e']] }).map
        (fun s => (s.pos, s.inFrames, s.out.getLast?))
      = some (300, ([] : List (List Char)), some (("MoveTo: ") ++ toString (300 : Int) ++ (";"))) ∧
    (process plant2 200 ['m', ',', '3', '0', '0', '.'] { initState with inFrames := [['e']] }).map
        (fun s => (s.pos, s.out))
      = (process plant2 200 ['m', ',', '3', '0', '0', '.'] initState).map
        (fun s => (s.pos, s.out)) := by
  exact ⟨by decide, by decide⟩

theorem goHomeLoop_exit (plant : Plant) (fuel : Nat) (stc : Int) (s : MState)
    (h : (check_abort_or_limit s).1 = true) :
    goHomeLoop plant (fuel + 1) stc s = some (check_abort_or_limit s).2 := by
  simp only [goHomeLoop, h, if_true]

/-- C6 (amended): the safety conditions polled differ per loop. The
closed-loop coarse phase (both drive directions) and the calibration
loop poll abort and limit — a pending stop frame is consumed by
`check_abort` and silently dropped, and the loop continues when no
limit is configured; the free-run loops poll stop and limit — a
pending abort frame is consumed by `check_stop` and silently dropped.
Any condition a loop does poll causes it to exit when observed at a
poll boundary (the reverse coarse loop additionally stops the motor
at the break itself). -/
theorem C6_polled_conditions_per_loop :
    (∀ (plant : Plant) (fuel : Nat) (counter target : Int) (s : MState) (f : List Char)
        (rest : List (List Char)), s.pos < target → counter ≤ 0 →
        s.inFrames = ('z' :: f) :: rest →
        coarseFwd plant target (fuel + 1) counter s
          = some (true, { send_status s with inFrames := rest })) ∧
    (∀ (plant : Plant) (fuel : Nat) (counter target : Int) (s : MState) (f : List Char)
        (rest : List (List Char)), s.pos < target → counter ≤ 0 →
        s.inFrames = ('e' :: f) :: rest → s.homeLimit = -1 →
        coarseFwd plant target (fuel + 1) counter s
          = coarseFwd plant target fuel 5
              (delayP plant 100 { send_status s with inFrames := rest, fbVal := s.pos })) ∧
    (∀ (plant : Plant) (fuel : Nat) (counter target : Int) (s : MState),
        s.pos < target → counter ≤ 0 → s.inFrames = [] →
        limitHit s.homeLimit s.maxLimit s.pos = true →
        coarseFwd plant target (fuel + 1) counter s
          = some (true, { send_status s with fbVal := s.pos })) ∧
    (∀ (plant : Plant) (fuel : Nat) (counter target : Int) (s : MState) (f : List Char)
        (rest : List (List Char)), s.pos > target → counter ≤ 0 →
        s.inFrames = ('z' :: f) :: rest →
        coarseRev plant target (fuel + 1) counter s
          = some (true, setSpeed 0 { send_status s with inFrames := rest })) ∧
    (∀ (plant : Plant) (fuel : Nat) (counter target : Int) (s : MState) (f : List Char)
        (rest : List (List Char)), s.pos > target → counter ≤ 0 →
        s.inFrames = ('e' :: f) :: rest → s.homeLimit = -1 →
        coarseRev plant target (fuel + 1) counter s
          = coarseRev plant target fuel 5
              (delayP plant 100 { send_status s with inFrames := rest, fbVal := s.pos })) ∧
    (∀ (plant : Plant) (fuel : Nat) (counter target : Int) (s : MState),
        s.pos > target → counter ≤ 0 → s.inFrames = [] →
        limitHit s.homeLimit s.maxLimit s.pos = true →
        coarseRev plant target (fuel + 1) counter s
          = some (true, setSpeed 0 { send_status s with fbVal := s.pos })) ∧
    (∀ (plant : Plant) (fuel : Nat) (counter : Int) (s : MState) (f : List Char)
        (rest : List (List Char)), s.inFrames = ('e' :: f) :: rest →
        freeLoop plant (fuel + 1) counter s = some { s with inFrames := rest }) ∧
    (∀ (plant : Plant) (fuel : Nat) (counter : Int) (s : MState) (f : List Char)
        (rest : List (List Char)), s.inFrames = ('z' :: f) :: rest → s.homeLimit = -1 →
        freeLoop plant (fuel + 1) counter s
          = if counter ≤ 0 then
              freeLoop plant fuel 5
                (send_status (delayP plant 100 { s with inFrames := rest, fbVal := s.pos }))
            else
              freeLoop plant fuel (counter - 1)
                (delayP plant 100 { s with inFrames := rest, fbVal := s.pos })) ∧
    (∀ (plant : Plant) (fuel : Nat) (counter : Int) (s : MState),
        s.inFrames = [] → limitHit s.homeLimit s.maxLimit s.pos = true →
        freeLoop plant (fuel + 1) counter s = some { s with fbVal := s.pos }) ∧
    (∀ (plant : Plant) (fuel : Nat) (stc : Int) (s : MState),
        (check_abort_or_limit s).1 = true →
        goHomeLoop plant (fuel + 1) stc s = some (check_abort_or_limit s).2) ∧
    (∀ (plant : Plant) (fuel : Nat) (stc : Int) (s : MState) (f : List Char)
        (rest : List (List Char)), s.inFrames = ('e' :: f) :: rest → s.homeLimit = -1 →
        goHomeLoop plant (fuel + 1) stc s
          = goHomeLoop plant fuel (if stc ≤ 0 then 5 else stc - 1)
              (delayP plant 500
                (if stc ≤ 0 then send_status { s with inFrames := rest, fbVal := s.pos }
                 else { s with inFrames := rest, fbVal := s.pos }))) := by
  refine ⟨?_, ?_, ?_, ?_, ?_, ?_, ?_, ?_, ?_,
    fun plant fuel stc s h => goHomeLoop_exit plant fuel stc s h, ?_⟩
  · intro plant fuel counter target s f rest hlt hcnt hin
    have hab : check_abort (send_status s) = (true, { send_status s with inFrames := rest }) := by
      have h2 : (send_status s).inFrames = ('z' :: f) :: rest := hin
      simp [check_abort, h2]
    simp only [coarseFwd]
    rw [if_pos hlt, if_pos hcnt]
    simp [check_abort_or_limit, hab]
  · intro plant fuel counter target s f rest hlt hcnt hin hhl
    have hab : check_abort (send_status s) = (false, { send_status s with inFrames := rest }) := by
      have h2 : (send_status s).inFrames = ('e' :: f) :: rest := hin
      simp [check_abort, h2]
    have e1 : (send_status s).homeLimit = (-1 : Int) := hhl
    simp only [coarseFwd]
    rw [if_pos hlt, if_pos hcnt]
    simp [check_abort_or_limit, hab, check_limit, limitHit, e1]
    rfl
  · intro plant fuel counter target s hlt hcnt hin hlim
    have hab : check_abort (send_status s) = (false, send_status s) := by
      have h2 : (send_status s).inFrames = [] := hin
      simp [check_abort, h2]
    have e1 : limitHit (send_status s).homeLimit (send_status s).maxLimit (send_status s).pos
        = true := hlim
    simp only [coarseFwd]
    rw [if_pos hlt, if_pos hcnt]
    simp [check_abort_or_limit, hab, check_limit, e1]
    rfl
  · intro plant fuel counter target s f rest hgt hcnt hin
    have hab : check_abort (send_status s) = (true, { send_status s with inFrames := rest }) := by
      have h2 : (send_status s).inFrames = ('z' :: f) :: rest := hin
      simp [check_abort, h2]
    simp only [coarseRev]
    rw [if_pos hgt, if_pos hcnt]
    simp [check_abort_or_limit, hab]
  · intro plant fuel counter target s f rest hgt hcnt hin hhl
    have hab : check_abort (send_status s) = (false, { send_status s with inFrames := rest }) := by
      have h2 : (send_status s).inFrames = ('e' :: f) :: rest := hin
      simp [check_abort, h2]
    have e1 : (send_status s).homeLimit = (-1 : Int) := hhl
    simp only [coarseRev]
    rw [if_pos hgt, if_pos hcnt]
    simp [check_abort_or_limit, hab, check_limit, limitHit, e1]
    rfl
  · intro plant fuel counter target s hgt hcnt hin hlim
    have hab : check_abort (send_status s) = (false, send_status s) := by
      have h2 : (send_status s).inFrames = [] := hin
      simp [check_abort, h2]
    have e1 : limitHit (send_status s).homeLimit (send_status s).maxLimit (send_status s).pos
        = true := hlim
    simp only [coarseRev]
    rw [if_pos hgt, if_pos hcnt]
    simp [check_abort_or_limit, hab, check_limit, e1]
    rfl
  · intro plant fuel counter s f rest hin
    have hst : check_stop s = (true, { s with inFrames := rest }) := by
      simp [check_stop, hin]
    simp only [freeLoop]
    simp [hst]
  · intro plant fuel counter s f rest hin hhl
    have hst : check_stop s = (false, { s with inFrames := rest }) := by
      simp [check_stop, hin]
    simp only [freeLoop]
    simp [hst, check_limit, limitHit, hhl]
  · intro plant fuel counter s hin hlim
    have hst : check_stop s = (false, s) := by
      simp [check_stop, hin]
    simp only [freeLoop]
    simp [hst, check_limit, hlim]
  · intro plant fuel stc s f rest hin hhl
    have hab : check_abort s = (false, { s with inFrames := rest }) := by
      simp [check_abort, hin]
    have hq : check_abort_or_limit s = (false, { s with inFrames := rest, fbVal := s.pos }) := by
      simp [check_abort_or_limit, hab, check_limit, limitHit, hhl]
    simp only [goHomeLoop, hq]
    by_cases hst : stc ≤ 0
    · simp [hst]
    · simp [hst]

/-- A state with a pending abort frame, at the boot configuration. -/
def stAbort : MState := { initState with inFrames := [['z']] }

/-- A state with a pending stop frame, at the boot configuration. -/
def stStop : MState := { initState with inFrames := [['e']] }

/-- A state with both soft limits configured and the sample inside
the home-limit band. -/
def stLim : MState := { initState with pos := 500, homeLimit := 499, maxLimit := 1000 }

/-- A state above the target with a pending abort frame, for the
reverse coarse loop. -/
def stRevA : MState := { initState with pos := 500, inFrames := [['z']] }

/-- A state above the target with a pending stop frame, for the
reverse coarse loop. -/
def stRevS : MState := { initState with pos := 500, inFrames := [['e']] }

/-- C6 witness: each of the per-loop poll facts at a concrete
state. -/
theorem C6_witness :
    coarseFwd constPlant 10 1 0 stAbort = some (true, { send_status stAbort with inFrames := [] }) ∧
    coarseFwd constPlant 10 1 0 stStop
      = coarseFwd constPlant 10 0 5
          (delayP constPlant 100 { send_status stStop with inFrames := [], fbVal := stStop.pos }) ∧
    coarseFwd constPlant 600 1 0 stLim = some (true, { send_status stLim with fbVal := stLim.pos }) ∧
    coarseRev constPlant 10 1 0 stRevA
      = some (true, setSpeed 0 { send_status stRevA with inFrames := [] }) ∧
    coarseRev constPlant 10 1 0 stRevS
      = coarseRev constPlant 10 0 5
          (delayP constPlant 100 { send_status stRevS with inFrames := [], fbVal := stRevS.pos }) ∧
    coarseRev constPlant 10 1 0 stLim
      = some (true, setSpeed 0 { send_status stLim with fbVal := stLim.pos }) ∧
    freeLoop constPlant 1 0 stStop = some { stStop with inFrames := [] } ∧
    freeLoop constPlant 1 0 stAbort
      = freeLoop constPlant 0 5
          (send_status (delayP constPlant 100 { stAbort with inFrames := [], fbVal := stAbort.pos })) ∧
    freeLoop constPlant 1 0 stLim = some { stLim with fbVal := stLim.pos } ∧
    goHomeLoop constPlant 1 5 stLim = some (check_abort_or_limit stLim).2 ∧
    goHomeLoop constPlant 1 5 stStop
      = goHomeLoop constPlant 0 4
          (delayP constPlant 500 { stStop with inFrames := [], fbVal := stStop.pos }) :=
  ⟨C6_polled_conditions_per_loop.1 constPlant 0 0 10 stAbort [] [] (by decide) (by decide) rfl,
    C6_polled_conditions_per_loop.2.1 constPlant 0 0 10 stStop [] [] (by decide) (by decide) rfl rfl,
    C6_polled_conditions_per_loop.2.2.1 constPlant 0 0 600 stLim (by decide) (by decide) rfl
      (by decide),
    C6_polled_conditions_per_loop.2.2.2.1 constPlant 0 0 10 stRevA [] [] (by decide) (by decide)
      rfl,
    C6_polled_conditions_per_loop.2.2.2.2.1 constPlant 0 0 10 stRevS [] [] (by decide) (by decide)
      rfl rfl,
    C6_polled_conditions_per_loop.2.2.2.2.2.1 constPlant 0 0 10 stLim (by decide) (by decide) rfl
      (by decide),
    C6_polled_conditions_per_loop.2.2.2.2.2.2.1 constPlant 0 0 stStop [] [] rfl,
    C6_polled_conditions_per_loop.2.2.2.2.2.2.2.1 constPlant 0 0 stAbort [] [] rfl rfl,
    C6_polled_conditions_per_loop.2.2.2.2.2.2.2.2.1 constPlant 0 0 stLim rfl (by decide),
    C6_polled_conditions_per_loop.2.2.2.2.2.2.2.2.2.1 constPlant 0 5 stLim (by decide),
    C6_polled_conditions_per_loop.2.2.2.2.2.2.2.2.2.2 constPlant 0 5 stStop [] [] rfl rfl⟩

/-- C4 counterexample: in `motor_ctrl.ino`, `go_home_or_max` on a
fully stationary plant with no configured limits and no abort never
terminates (50 poll iterations exhaust the fuel with no exit: there
is no stability counter), while the same run with soft limits
configured exits immediately through `check_limit` — so calibration
does consult the configured soft limits and does not use the
stability heuristic. -/
theorem C4_counterexample :
    go_home_or_max constPlant 50 HOME { initState with pos := 500 } = none ∧
    (go_home_or_max constPlant 50 HOME stLim).map (fun r => r.1) = some true := by
  exact ⟨by decide, by decide⟩

/-- One iteration of the older variant's calibration poll loop that
does not hit the end-stop break: the previous sample becomes the
reference, the stability counter decrements only when the fresh
sample is within 2 units of the previous one, the status cadence
counter wraps at 0, and no frame is pending so the abort check is
quiet.  Stated over the stationary plant. -/
theorem goHome2Loop_cont {fb0 fbc stc fbc' stc' : Int} {s s' : MState} (fuel : Nat)
    (hin : s.inFrames = [])
    (hnb : ¬((fb0 ≤ s.pos + 2 ∧ s.pos - 2 ≤ fb0) ∧ fbc ≤ 0))
    (hfbc : (if fb0 ≤ s.pos + 2 ∧ s.pos - 2 ≤ fb0 then fbc - 1 else fbc) = fbc')
    (hstc : (if stc ≤ 0 then (5 : Int) else stc - 1) = stc')
    (hs : (if stc ≤ 0 then send_status s else s) = s') :
    goHome2Loop constPlant (fuel + 1) fb0 fbc stc s
      = goHome2Loop constPlant fuel s.pos fbc' stc' s' := by
  subst hfbc hstc hs
  simp only [goHome2Loop]
  rw [if_neg hnb]
  by_cases hst : stc ≤ 0
  · simp only [if_pos hst]
    have hab : check_abort (send_status s) = (false, send_status s) := by
      have h2 : (send_status s).inFrames = [] := hin
      simp [check_abort, h2]
    simp [hab, delayP, constPlant]
  · simp only [if_neg hst]
    have hab : check_abort s = (false, s) := by simp [check_abort, hin]
    simp [hab, delayP, constPlant]

/-- C4 (amended): in `motor_ctrl.ino` the calibration poll loop
detects end-of-travel via the soft-limit check (`check_limit`) or an
explicit abort — either signal observed at a poll makes the loop exit
and the operation return success with the motor stopped; there is no
stability counter in this variant, and the configured soft limits are
consulted.  The older variant's `go_home_or_max` (lines 917-945) is
the one that uses the stability heuristic: with a stationary sensor
(and any soft-limit configuration, which it never reads) it exits
after the sample has been within 2 units of the previous sample for 5
consecutive polls and returns success with the motor stopped. -/
theorem C4_calibration_exit_conditions :
    (∀ (plant : Plant) (fuel : Nat) (stc : Int) (s : MState),
        (check_abort_or_limit s).1 = true →
        goHomeLoop plant (fuel + 1) stc s = some (check_abort_or_limit s).2) ∧
    (∀ (plant : Plant) (fuel : Nat) (which : Nat) (s : MState), s.fault = false →
        go_home_or_max plant fuel which s
          = (goHomeLoop plant fuel 5
              (delayP plant 100
                (setSpeed (if which = HOME then -s.currentSpeed else s.currentSpeed) s))).map
              (fun s2 => (true, setSpeed 0 (delayP plant 100 s2)))) ∧
    (∀ (s : MState) (n : Nat), s.inFrames = [] → s.fault = false → 2 ≤ s.pos →
        go_home_or_max2 constPlant (n + 7) HOME s
          = some (true, setSpeed 0 (send_status (setSpeed (-s.currentSpeed) s)))) := by
  refine ⟨fun plant fuel stc s h => goHomeLoop_exit plant fuel stc s h, ?_, ?_⟩
  · intro plant fuel which s hf
    simp only [go_home_or_max]
    rw [if_neg (by simp [setSpeed, hf])]
  · intro s n hin hf hpos
    have hin1 : (setSpeed (-s.currentSpeed) s).inFrames = [] := hin
    have hin2 : (send_status (setSpeed (-s.currentSpeed) s)).inFrames = [] := hin
    simp only [go_home_or_max2, if_true]
    rw [if_neg (show ¬(setSpeed (-s.currentSpeed) s).fault = true by simp [setSpeed, hf])]
    rw [show delayP constPlant 100 (setSpeed (-s.currentSpeed) s)
        = setSpeed (-s.currentSpeed) s from rfl]
    rw [show n + 7 = (n + 6) + 1 from rfl]
    rw [goHome2Loop_cont (n + 6) hin1 (by simp only [setSpeed]; omega)
      (by rw [if_neg (by simp only [setSpeed]; omega)]) (by rw [if_neg (by omega)])
      (by rw [if_neg (by omega)])]
    rw [show n + 6 = (n + 5) + 1 from rfl]
    rw [goHome2Loop_cont (n + 5) hin1 (by simp only [setSpeed]; omega)
      (by rw [if_pos (by simp only [setSpeed]; omega)]) (by rw [if_neg (by omega)])
      (by rw [if_neg (by omega)])]
    rw [show n + 5 = (n + 4) + 1 from rfl]
    rw [goHome2Loop_cont (n + 4) hin1 (by simp only [setSpeed]; omega)
      (by rw [if_pos (by simp only [setSpeed]; omega)]) (by rw [if_neg (by omega)])
      (by rw [if_neg (by omega)])]
    rw [show n + 4 = (n + 3) + 1 from rfl]
    rw [goHome2Loop_cont (n + 3) hin1 (by simp only [setSpeed]; omega)
      (by rw [if_pos (by simp only [setSpeed]; omega)]) (by rw [if_neg (by omega)])
      (by rw [if_neg (by omega)])]
    rw [show n + 3 = (n + 2) + 1 from rfl]
    rw [goHome2Loop_cont (n + 2) hin1 (by simp only [setSpeed]; omega)
      (by rw [if_pos (by simp only [setSpeed]; omega)]) (by rw [if_neg (by omega)])
      (by rw [if_neg (by omega)])]
    rw [show n + 2 = (n + 1) + 1 from rfl]
    rw [goHome2Loop_cont (n + 1) hin1 (by simp only [setSpeed]; omega)
      (by rw [if_pos (by simp only [setSpeed]; omega)]) (by rw [if_pos (by omega)])
      (by rw [if_pos (by omega)])]
    simp only [goHome2Loop]
    rw [if_pos (by simp only [setSpeed, send_status, emit]; omega)]
    simp [delayP, constPlant]

/-- A stationary state used to witness the stability heuristic of the
older calibration variant. -/
def st500 : MState := { initState with pos := 500 }

/-- C4 witness: the three conjuncts of the amended claim at concrete
inputs. -/
theorem C4_witness :
    goHomeLoop constPlant 1 5 stLim = some (check_abort_or_limit stLim).2 ∧
    go_home_or_max constPlant 3 HOME stLim
      = (goHomeLoop constPlant 3 5
          (delayP constPlant 100
            (setSpeed (if HOME = HOME then -stLim.currentSpeed else stLim.currentSpeed) stLim))).map
          (fun s2 => (true, setSpeed 0 (delayP constPlant 100 s2))) ∧
    go_home_or_max2 constPlant 20 HOME st500
      = some (true, setSpeed 0 (send_status (setSpeed (-st500.currentSpeed) st500))) :=
  ⟨C4_calibration_exit_conditions.1 constPlant 0 5 stLim (by decide),
    C4_calibration_exit_conditions.2.1 constPlant 3 HOME stLim (by decide),
    C4_calibration_exit_conditions.2.2 st500 13 rfl (by decide) (by decide)⟩

theorem check_aol_quiet {s : MState} (hin : s.inFrames = []) (hhl : s.homeLimit = -1) :
    check_abort_or_limit s = (false, { s with fbVal := s.pos }) := by
  have hab : check_abort s = (false, s) := by simp [check_abort, hin]
  simp [check_abort_or_limit, hab, check_limit, limitHit, hhl]

theorem coarseFwd_unit (target : Int) :
    ∀ (fuel : Nat) (counter : Int) (s : MState),
      s.inFrames = [] → s.homeLimit = -1 → 0 < s.motorSpeed →
      s.pos ≤ target → (target - s.pos).toNat < fuel →
      ∃ s2, coarseFwd unitPlant target fuel counter s = some (false, s2) ∧
        s2.pos = target ∧ s2.inFrames = [] ∧ s2.homeLimit = -1 ∧
        s2.motorSpeed = s.motorSpeed ∧ s2.currentSpeed = s.currentSpeed := by
  intro fuel
  induction fuel with
  | zero => intro counter s _ _ _ _ hfuel; exact absurd hfuel (by omega)
  | succ n ih =>
    intro counter s hin hhl hms hle hfuel
    by_cases hpos : s.pos < target
    · have hq : check_abort_or_limit (send_status s)
          = (false, { send_status s with fbVal := s.pos }) :=
        check_aol_quiet (show (send_status s).inFrames = [] from hin)
          (show (send_status s).homeLimit = -1 from hhl)
      by_cases hcnt : counter ≤ 0
      · have hx : (delayP unitPlant 100 { send_status s with fbVal := s.pos }).pos
            = s.pos + 1 := by
          simp [delayP, unitPlant, send_status, emit, hms]
        obtain ⟨s2, h1, h2, h3, h4, h5, h6⟩ :=
          ih 5 (delayP unitPlant 100 { send_status s with fbVal := s.pos })
            hin hhl hms (by omega) (by rw [hx]; omega)
        refine ⟨s2, ?_, h2, h3, h4, h5, h6⟩
        simp only [coarseFwd]
        rw [if_pos hpos, if_pos hcnt, hq]
        exact h1
      · have hx : (delayP unitPlant 100 s).pos = s.pos + 1 := by
          simp [delayP, unitPlant, hms]
        obtain ⟨s2, h1, h2, h3, h4, h5, h6⟩ :=
          ih (counter - 1) (delayP unitPlant 100 s) hin hhl hms (by omega) (by rw [hx]; omega)
        refine ⟨s2, ?_, h2, h3, h4, h5, h6⟩
        simp only [coarseFwd]
        rw [if_pos hpos, if_neg hcnt]
        exact h1
    · refine ⟨s, ?_, by omega, hin, hhl, rfl, rfl⟩
      simp only [coarseFwd]
      rw [if_neg hpos]

theorem coarseRev_unit (target : Int) :
    ∀ (fuel : Nat) (counter : Int) (s : MState),
      s.inFrames = [] → s.homeLimit = -1 → s.motorSpeed < 0 →
      target ≤ s.pos → (s.pos - target).toNat < fuel →
      ∃ s2, coarseRev unitPlant target fuel counter s = some (false, s2) ∧
        s2.pos = target ∧ s2.inFrames = [] ∧ s2.homeLimit = -1 ∧
        s2.motorSpeed = s.motorSpeed ∧ s2.currentSpeed = s.currentSpeed := by
  intro fuel
  induction fuel with
  | zero => intro counter s _ _ _ _ hfuel; exact absurd hfuel (by omega)
  | succ n ih =>
    intro counter s hin hhl hms hle hfuel
    by_cases hpos : s.pos > target
    · have hq : check_abort_or_limit (send_status s)
          = (false, { send_status s with fbVal := s.pos }) :=
        check_aol_quiet (show (send_status s).inFrames = [] from hin)
          (show (send_status s).homeLimit = -1 from hhl)
      by_cases hcnt : counter ≤ 0
      · have hx2 : (delayP unitPlant 100 { send_status s with fbVal := s.pos }).pos
            = s.pos - 1 := by
          simp only [delayP, unitPlant, send_status, emit]
          split_ifs <;> omega
        obtain ⟨s2, h1, h2, h3, h4, h5, h6⟩ :=
          ih 5 (delayP unitPlant 100 { send_status s with fbVal := s.pos })
            hin hhl hms (by omega) (by rw [hx2]; omega)
        refine ⟨s2, ?_, h2, h3, h4, h5, h6⟩
        simp only [coarseRev]
        rw [if_pos hpos, if_pos hcnt, hq]
        exact h1
      · have hx : (delayP unitPlant 100 s).pos = s.pos - 1 := by
          simp only [delayP, unitPlant]
          split_ifs <;> omega
        obtain ⟨s2, h1, h2, h3, h4, h5, h6⟩ :=
          ih (counter - 1) (delayP unitPlant 100 s) hin hhl hms (by omega) (by rw [hx]; omega)
        refine ⟨s2, ?_, h2, h3, h4, h5, h6⟩
        simp only [coarseRev]
        rw [if_pos hpos, if_neg hcnt]
        exact h1
    · refine ⟨s, ?_, by omega, hin, hhl, rfl, rfl⟩
      simp only [coarseRev]
      rw [if_neg hpos]

theorem mtAfter_false_close {plant : Plant} {fuel : Nat} {target : Int} {s1 : MState}
    (hd : ((delayP plant 500 (setSpeed 0 s1)).pos - target).natAbs ≤ 1) :
    mtAfter plant fuel target false s1
      = some (true, mtFinish plant s1.currentSpeed (delayP plant 500 (setSpeed 0 s1))) := by
  simp only [mtAfter]
  rw [if_neg (by simp)]
  rw [if_neg (by omega)]

/-- C1 (amended): with an ideal noise-free plant that moves exactly
one potentiometer unit per poll interval in the commanded direction,
no pending frames, no configured limits, no fault and a positive
configured speed, `move_to_feedback_value` terminates for every
target in 0..1023 and lands with `|sample - target| ≤ 1` (in fact
exactly on the target; the coarse loop cannot overshoot a unit-step
plant, so the fine phase is skipped).  For plants with coarser steps
the original bound fails — see the counterexample. -/
theorem C1_unit_plant_accuracy (target : Int) (s : MState) (h1 : 0 ≤ target)
    (h2 : target ≤ 1023) (h3 : 0 ≤ s.pos) (h4 : s.pos ≤ 1023) (hin : s.inFrames = [])
    (hhl : s.homeLimit = -1) (hml : s.maxLimit = -1) (hf : s.fault = false)
    (hcs : 1 ≤ s.currentSpeed) :
    ∃ s2, move_to_feedback_value unitPlant 2048 target s = some (true, s2) ∧
      (s2.pos - target).natAbs ≤ 1 := by
  by_cases hdir : target > s.pos
  · have hd : decide (target > s.pos) = true := decide_eq_true hdir
    obtain ⟨s1, hc, hp, hin1, hhl1, hms1, hcs1⟩ :=
      coarseFwd_unit target 2048 5 (send_status (setSpeed s.currentSpeed s))
        hin hhl (show (0 : Int) < s.currentSpeed by omega)
        (show s.pos ≤ target from le_of_lt hdir)
        (show (target - s.pos).toNat < 2048 by omega)
    have hdp : (delayP unitPlant 500 (setSpeed 0 s1)).pos = target := by
      rw [show (delayP unitPlant 500 (setSpeed 0 s1)).pos = s1.pos from rfl, hp]
    refine ⟨mtFinish unitPlant s1.currentSpeed (delayP unitPlant 500 (setSpeed 0 s1)), ?_, ?_⟩
    · simp only [move_to_feedback_value, hd, eq_self_iff_true, if_true]
      rw [if_neg (by simp [setSpeed, hf])]
      rw [hc]
      exact mtAfter_false_close (by rw [hdp]; simp)
    · rw [show (mtFinish unitPlant s1.currentSpeed (delayP unitPlant 500 (setSpeed 0 s1))).pos
          = (delayP unitPlant 500 (setSpeed 0 s1)).pos from rfl, hdp]
      simp
  · have hd : decide (target > s.pos) = false := decide_eq_false hdir
    obtain ⟨s1, hc, hp, hin1, hhl1, hms1, hcs1⟩ :=
      coarseRev_unit target 2048 5 (send_status (setSpeed (-s.currentSpeed) s))
        hin hhl (show -s.currentSpeed < (0 : Int) by omega)
        (show target ≤ s.pos by omega)
        (show (s.pos - target).toNat < 2048 by omega)
    have hdp : (delayP unitPlant 500 (setSpeed 0 s1)).pos = target := by
      rw [show (delayP unitPlant 500 (setSpeed 0 s1)).pos = s1.pos from rfl, hp]
    refine ⟨mtFinish unitPlant s1.currentSpeed (delayP unitPlant 500 (setSpeed 0 s1)), ?_, ?_⟩
    · simp only [move_to_feedback_value, hd, Bool.false_eq_true, if_false]
      rw [if_neg (by simp [setSpeed, hf])]
      rw [hc]
      exact mtAfter_false_close (by rw [hdp]; simp)
    · rw [show (mtFinish unitPlant s1.currentSpeed (delayP unitPlant 500 (setSpeed 0 s1))).pos
          = (delayP unitPlant 500 (setSpeed 0 s1)).pos from rfl, hdp]
      simp

/-- C1 witness: moving from 0 to 512 on the unit-step plant lands
within one unit of the target. -/
theorem C1_witness :
    ∃ s2, move_to_feedback_value unitPlant 2048 512 initState = some (true, s2) ∧
      (s2.pos - 512).natAbs ≤ 1 :=
  C1_unit_plant_accuracy 512 initState (by decide) (by decide) (by decide) (by decide)
    rfl rfl rfl rfl (by decide)

/-- `cexPlant1` is monotone toward the commanded direction and
noise-free, so it satisfies the premises of the original C1 claim. -/
theorem cexPlant1_monotone_noisefree (ms speed pos : Int) :
    (speed = 0 → cexPlant1 ms speed pos = pos) ∧
    (0 < speed → pos ≤ cexPlant1 ms speed pos) ∧
    (speed < 0 → cexPlant1 ms speed pos ≤ pos) := by
  simp only [cexPlant1]
  refine ⟨?_, ?_, ?_⟩ <;> intro h <;> split_ifs <;> omega

/-- C1 counterexample: on the monotone, noise-free plant `cexPlant1`
(100 units per driven poll interval, 3 units per 50 ms correction
pulse, no movement when stopped), `move_to(50)` from position 0 with
no abort/stop/limit/fault terminates — but at position 33, a final
deviation of 17 > 1: the coarse phase overshoots to 100, the backlash
take-up returns to 0, and the 11 bounded correction pulses of 3 units
each cannot cover the remaining 50. -/
theorem C1_counterexample :
    (move_to_feedback_value cexPlant1 100 50 initState).map
        (fun r => (r.1, (r.2.pos - 50).natAbs))
      = some (true, 17) ∧ 1 < 17 := by
  exact ⟨by decide, by decide⟩

end FlexiLoop
